import Mathlib

set_option maxRecDepth 100000

/-!
Verification development for the multi-agent orchestrator
(`orchestrator.py` of the CODERS-AI repository).

The Python source is shallowly embedded:
* `hashlib.sha256(...).hexdigest()` is embedded as an executable SHA-256 over
  `Nat` machine words (reduced `% 2 ^ 32` where the hardware would overflow),
  validated below against the standard test vectors;
* Python strings are Lean `String`s, and the Python string operations the
  source uses (`in`, `split`, `strip`, `replace`, `lower`, `startswith`)
  are embedded as structurally recursive functions over `List Char` with
  Python semantics (ASCII whitespace for `strip`; the source never feeds
  non-ASCII whitespace into these operations);
* the shared mutable dictionary is a record of optional fields, Python
  `dict.get(k, d)` becoming `Option.getD`;
* Python floats in the entropy heuristic are embedded as exact rationals:
  every penalty is a multiple of 1/10 and the running sums stay small, so
  the source's `round(x, 2)` of the floating-point sum equals the exact
  rational value modelled here;
* the network call of `Agent.reason_and_act` is a parameter of type
  `Except String String` (success payload or exception text), and the
  role-specific `_create_meta_prompt` bodies (plain string formatting whose
  content no claim depends on) are a function parameter `mps`.
-/

/-! ### SHA-256 over `Nat` (embedding of `hashlib.sha256(...).hexdigest()`) -/

/-- 32-bit right rotation on a `Nat` word. -/
def rotr32 (x n : Nat) : Nat :=
  ((x >>> n) ||| (x <<< (32 - n))) % 2 ^ 32

/-- The 64 SHA-256 round constants (decimal rendering of the standard
table). -/
def shaK : List Nat :=
  [1116352408, 1899447441, 3049323471, 3921009573, 961987163,
   1508970993, 2453635748, 2870763221, 3624381080, 310598401,
   607225278, 1426881987, 1925078388, 2162078206, 2614888103,
   3248222580, 3835390401, 4022224774, 264347078, 604807628,
   770255983, 1249150122, 1555081692, 1996064986, 2554220882,
   2821834349, 2952996808, 3210313671, 3336571891, 3584528711,
   113926993, 338241895, 666307205, 773529912, 1294757372,
   1396182291, 1695183700, 1986661051, 2177026350, 2456956037,
   2730485921, 2820302411, 3259730800, 3345764771, 3516065817,
   3600352804, 4094571909, 275423344, 430227734, 506948616,
   659060556, 883997877, 958139571, 1322822218, 1537002063,
   1747873779, 1955562222, 2024104815, 2227730452, 2361852424,
   2428436474, 2756734187, 3204031479, 3329325298]

/-- The SHA-256 initial hash value (decimal rendering). -/
def shaInitH : List Nat :=
  [1779033703, 3144134277, 1013904242, 2773480762,
   1359893119, 2600822924, 528734635, 1541459225]

/-- SHA-256 padding: append `0x80`, zero bytes to 56 mod 64, then the
bit length as 8 big-endian bytes. -/
def padMessage (msg : List Nat) : List Nat :=
  let len := msg.length
  let zeros := (120 - (len + 1) % 64) % 64
  let lenBytes := (List.range 8).map (fun i => (len * 8) >>> (8 * (7 - i)) % 2 ^ 64 % 256)
  msg ++ [0x80] ++ List.replicate zeros 0 ++ lenBytes

/-- Group a byte list into big-endian 32-bit words. -/
def bytesToWords : List Nat → List Nat
  | a :: b :: c :: d :: rest =>
      ((a <<< 24) ||| (b <<< 16) ||| (c <<< 8) ||| d) :: bytesToWords rest
  | _ => []

/-- Split a word list into 16-word blocks (fuel-structural on the length). -/
def chunksGo : Nat → List Nat → List (List Nat)
  | _, [] => []
  | 0, l => [l]
  | f + 1, l => l.take 16 :: chunksGo f (l.drop 16)

/-- All 16-word blocks of a padded message. -/
def chunks16 (l : List Nat) : List (List Nat) :=
  chunksGo l.length l

/-- One extension step of the SHA-256 message schedule. -/
def scheduleStep (w : List Nat) : List Nat :=
  let i := w.length
  let w15 := w.getD (i - 15) 0
  let w2 := w.getD (i - 2) 0
  let s0 := (rotr32 w15 7) ^^^ (rotr32 w15 18) ^^^ (w15 >>> 3)
  let s1 := (rotr32 w2 17) ^^^ (rotr32 w2 19) ^^^ (w2 >>> 10)
  w ++ [(w.getD (i - 16) 0 + s0 + w.getD (i - 7) 0 + s1) % 2 ^ 32]

/-- Iterate the message-schedule extension. -/
def extendSchedule : Nat → List Nat → List Nat
  | 0, w => w
  | n + 1, w => extendSchedule n (scheduleStep w)

/-- One SHA-256 compression round on the eight working variables. -/
def compressRound (k wi : Nat) (h : List Nat) : List Nat :=
  match h with
  | [a, b, c, d, e, f, g, hh] =>
    let s1 := (rotr32 e 6) ^^^ (rotr32 e 11) ^^^ (rotr32 e 25)
    let ch := (e &&& f) ^^^ ((e ^^^ 0xffffffff) &&& g)
    let temp1 := (hh + s1 + ch + k + wi) % 2 ^ 32
    let s0 := (rotr32 a 2) ^^^ (rotr32 a 13) ^^^ (rotr32 a 22)
    let maj := (a &&& b) ^^^ (a &&& c) ^^^ (b &&& c)
    let temp2 := (s0 + maj) % 2 ^ 32
    [(temp1 + temp2) % 2 ^ 32, a, b, c, (d + temp1) % 2 ^ 32, e, f, g]
  | _ => h

/-- Compress one 16-word block into the running hash value. -/
def compressBlock (h0 block : List Nat) : List Nat :=
  let w := extendSchedule 48 block
  let hs := (List.range 64).foldl
    (fun hs i => compressRound (shaK.getD i 0) (w.getD i 0) hs) h0
  List.zipWith (fun x y => (x + y) % 2 ^ 32) h0 hs

/-- SHA-256 of a byte list, as eight 32-bit words. -/
def sha256Words (msg : List Nat) : List Nat :=
  (chunks16 (bytesToWords (padMessage msg))).foldl compressBlock shaInitH

/-- Lowercase hex digit for a value below 16. -/
def hexDigit (n : Nat) : Char :=
  "0123456789abcdef".data.getD n (Char.ofNat 48)

/-- Render one 32-bit word as 8 lowercase hex characters. -/
def toHex8 (n : Nat) : String :=
  (List.range 8).foldl (fun acc i => acc.push (hexDigit ((n >>> (4 * (7 - i))) % 16))) ""

/-- The hex digest of SHA-256 of a byte list (Python `.hexdigest()`). -/
def sha256Hex (msg : List Nat) : String :=
  String.join ((sha256Words msg).map toHex8)

/-- UTF-8 encoding of one character (Python `str.encode()` per code point). -/
def encodeChar (c : Char) : List Nat :=
  let n := c.toNat
  if n < 0x80 then [n]
  else if n < 0x800 then
    [0xc0 ||| (n >>> 6), 0x80 ||| (n &&& 0x3f)]
  else if n < 0x10000 then
    [0xe0 ||| (n >>> 12), 0x80 ||| ((n >>> 6) &&& 0x3f), 0x80 ||| (n &&& 0x3f)]
  else
    [0xf0 ||| (n >>> 18), 0x80 ||| ((n >>> 12) &&& 0x3f),
     0x80 ||| ((n >>> 6) &&& 0x3f), 0x80 ||| (n &&& 0x3f)]

/-- UTF-8 encoding of a string (Python `str.encode()`). -/
def utf8Bytes (s : String) : List Nat :=
  s.data.flatMap encodeChar

/-- `create_genesis_hash` of the source: SHA-256 hex digest of the prompt. -/
def create_genesis_hash (prompt : String) : String :=
  sha256Hex (utf8Bytes prompt)

/-- `rehash_fragment` of the source: SHA-256 hex digest of
`f"{origin_hash}:{agent_name}:{thought}"`. -/
def rehash_fragment (origin_hash agent_name thought : String) : String :=
  sha256Hex (utf8Bytes (origin_hash ++ ":" ++ agent_name ++ ":" ++ thought))

/-! ### Python string operations (embedded with Python semantics) -/

/-- Does the list start with the given pattern (Python `str.startswith`)? -/
def startsW : List Char → List Char → Bool
  | _, [] => true
  | [], _ :: _ => false
  | a :: s, b :: p => a == b && startsW s p

/-- Does the pattern occur as a contiguous sublist (Python `in`)? -/
def strHas (s p : List Char) : Bool :=
  match s with
  | [] => p.isEmpty
  | _ :: t => startsW s p || strHas t p

/-- Python whitespace for `str.strip()` (the ASCII part; the source never
strips non-ASCII whitespace). -/
def isPySpace (c : Char) : Bool :=
  c == ' ' || c == Char.ofNat 9 || c == Char.ofNat 10 || c == Char.ofNat 13 ||
  c == Char.ofNat 11 || c == Char.ofNat 12

/-- Drop leading Python whitespace. -/
def dropWS : List Char → List Char
  | [] => []
  | c :: t => if isPySpace c then dropWS t else c :: t

/-- Python `str.strip()` on a character list. -/
def pyStripL (s : List Char) : List Char :=
  ((dropWS ((dropWS s).reverse)).reverse)

/-- Python `str.strip()`. -/
def pyStrip (s : String) : String :=
  ⟨pyStripL s.data⟩

/-- Python `in` on strings. -/
def pyContains (s sub : String) : Bool :=
  strHas s.data sub.data

/-- Python `str.startswith`. -/
def pyStarts (s p : String) : Bool :=
  startsW s.data p.data

/-- Python `str.lower()` (the source only lowercases ASCII text). -/
def pyLower (s : String) : String :=
  ⟨s.data.map Char.toLower⟩

/-- Python `str.split(sep)` for non-empty `sep`, fuel-structural on the
length so the kernel can evaluate it. -/
def pySplitGo (sep : List Char) : Nat → List Char → List (List Char)
  | _, [] => [[]]
  | 0, s => [s]
  | f + 1, c :: t =>
    if 0 < sep.length ∧ startsW (c :: t) sep then
      [] :: pySplitGo sep f ((c :: t).drop sep.length)
    else
      match pySplitGo sep f t with
      | [] => [[c]]
      | seg :: rest => (c :: seg) :: rest

/-- Python `str.split(sep)` (the source only splits on non-empty literals). -/
def pySplit (s sep : String) : List String :=
  if sep.data.isEmpty then [s]
  else (pySplitGo sep.data s.data.length s.data).map (fun l => ⟨l⟩)

/-- Python `str.replace(pat, rep)` for non-empty `pat`, fuel-structural. -/
def pyReplaceGo (pat rep : List Char) : Nat → List Char → List Char
  | _, [] => []
  | 0, s => s
  | f + 1, c :: t =>
    if 0 < pat.length ∧ startsW (c :: t) pat then
      rep ++ pyReplaceGo pat rep f ((c :: t).drop pat.length)
    else
      c :: pyReplaceGo pat rep f t

/-- Python `str.replace(pat, rep)` (the source only replaces a non-empty
literal). -/
def pyReplace (s pat rep : String) : String :=
  if pat.data.isEmpty then s
  else ⟨pyReplaceGo pat.data rep.data s.data.length s.data⟩

/-- A single apostrophe, as used inside the backend error message. -/
def squote : String :=
  (Char.ofNat 39).toString

/-! ### SharedState (the shared mutable dictionary) -/

/-- The shared state dictionary. Every key the source ever writes is one
field; `none` is "key absent". `code_chunks` and `validations` are
insertion-ordered dictionaries, embedded as association lists. -/
structure SharedState where
  status : Option String
  code_chunks : List (String × String)
  validations : List (String × String)
  current_action : Option String
  success_criteria : Option String
  plan : Option String
  advice : Option String
  last_chunk_id : Option String
  resource_management : Option String
  prompt_integrity : Option String
  current_entropy_score : Option ℚ
  final_script : Option String
deriving DecidableEq, Repr

/-- The dictionary the orchestration loop starts from. -/
def initial_shared_state : SharedState :=
  { status := some "STARTING"
    code_chunks := []
    validations := []
    current_action := none
    success_criteria := none
    plan := none
    advice := none
    last_chunk_id := none
    resource_management := none
    prompt_integrity := none
    current_entropy_score := none
    final_script := none }

/-- Python `d[k] = v` on an insertion-ordered dictionary: overwrite in
place when the key exists, else append. -/
def dictInsert (d : List (String × String)) (k v : String) :
    List (String × String) :=
  if (d.map Prod.fst).contains k then
    d.map (fun p => if p.1 = k then (k, v) else p)
  else
    d ++ [(k, v)]

/-- Python truthiness of `dict.get(key)` for a string-valued key. -/
def pyTruthy (o : Option String) : Bool :=
  !(o.getD "").isEmpty

/-! ### `calculate_entropy` -/

/-- `calculate_entropy` of the source. Exact-rational embedding of the
float arithmetic: every penalty is a multiple of 1/10 and the source
rounds the sum to two decimals, which is the identity on these values.
The source accumulates `entropy_score += ...` through six independent
blocks; the accumulation is translated as the sum of the six terms. -/
def calculate_entropy (s : SharedState) : ℚ :=
  (if pyContains (s.prompt_integrity.getD "") "INTEGRITY OK" then 0 else 1/2)
  + (let rm := pyLower (s.resource_management.getD "")
     if pyContains rm "complexity" || pyContains rm "scope" then
       if pyContains rm "reduce" || pyContains rm "manage" then 1/5 else 2/5
     else 0)
  + (if !(pyTruthy s.plan) then 1 else 0)
  + ((s.validations.map Prod.snd).countP (fun v => pyStarts v "INVALID")) * (7/10)
  + (if !(pyTruthy s.success_criteria) then 4/5 else 0)
  + (if s.current_action.getD "" = "REFINE" then 1/10
     else if s.current_action.getD "" = "PLAN" ∧ 0 < s.code_chunks.length then 3/10
     else 0)

/-- The non-integrity terms of `calculate_entropy`, split out to state
exactly when the 0.5 integrity penalty applies. -/
def entropyRest (s : SharedState) : ℚ :=
  (let rm := pyLower (s.resource_management.getD "")
     if pyContains rm "complexity" || pyContains rm "scope" then
       if pyContains rm "reduce" || pyContains rm "manage" then 1/5 else 2/5
     else 0)
  + (if !(pyTruthy s.plan) then 1 else 0)
  + ((s.validations.map Prod.snd).countP (fun v => pyStarts v "INVALID")) * (7/10)
  + (if !(pyTruthy s.success_criteria) then 4/5 else 0)
  + (if s.current_action.getD "" = "REFINE" then 1/10
     else if s.current_action.getD "" = "PLAN" ∧ 0 < s.code_chunks.length then 3/10
     else 0)

/-! ### The eight role reducers (`_process_output`) -/

/-- `Cube._process_output`: store the quote-stripped, trimmed decision. -/
def cube_process_output (output : String) (s : SharedState) : SharedState :=
  { s with current_action := some (pyStrip (pyReplace output "\x22" "")) }

/-- `Wave._process_output`: first-write-wins on `success_criteria`. -/
def wave_process_output (output : String) (s : SharedState) : SharedState :=
  if s.success_criteria = none then { s with success_criteria := some output }
  else s

/-- The fenced-block opener the source splits on. -/
def pythonFence : String :=
  "```python"

/-- Extract the first ```python fenced block, as the source does:
`output.split("```python")[1].split("```")[0].strip()`. -/
def extractFence (output : String) : String :=
  pyStrip (((pySplit ((pySplit output pythonFence).getD 1 "") "```").getD 0 ""))

/-- `Core._process_output`: append the fenced code block as the next
`chunk_<n>` and point `last_chunk_id` at it. -/
def core_process_output (output : String) (s : SharedState) : SharedState :=
  if pyContains output pythonFence then
    let code_chunk := extractFence output
    let chunk_id := "chunk_" ++ Nat.repr (s.code_chunks.length + 1)
    { s with code_chunks := dictInsert s.code_chunks chunk_id code_chunk
             last_chunk_id := some chunk_id }
  else s

/-- `Work._process_output`: record a verdict for `last_chunk_id` (if truthy)
and surface failures in `advice`. -/
def work_process_output (output : String) (s : SharedState) : SharedState :=
  if pyTruthy s.last_chunk_id then
    let lcid := s.last_chunk_id.getD ""
    if pyStarts output "VALID" then
      { s with validations := dictInsert s.validations lcid "VALID" }
    else
      { s with validations := dictInsert s.validations lcid ("INVALID - " ++ output)
               advice := some ("Validation failed for " ++ lcid ++ ": " ++ output) }
  else s

/-- `Loop._process_output`: rewrite the plan when absent or on refinement,
always rewrite `advice`. -/
def loop_process_output (output : String) (s : SharedState) : SharedState :=
  let s1 :=
    if s.plan = none ∨ pyContains (pyLower output) "refinement" then
      { s with plan := some output }
    else s
  { s1 with advice := some output }

/-- `Code._process_output`: store the fenced block as `final_script`. -/
def code_process_output (output : String) (s : SharedState) : SharedState :=
  if pyContains output pythonFence then
    { s with final_script := some (extractFence output) }
  else s

/-- `Line._process_output`: overwrite the resource assessment. -/
def line_process_output (output : String) (s : SharedState) : SharedState :=
  { s with resource_management := some output }

/-- `Coin._process_output`: overwrite the integrity report. -/
def coin_process_output (output : String) (s : SharedState) : SharedState :=
  { s with prompt_integrity := some output }

/-! ### Agents and `reason_and_act` -/

/-- The eight agent roles. -/
inductive Role
  | cube | wave | core | work | loop | code | line | coin
deriving DecidableEq, Repr

/-- The `AGENT_MODELS` table of the source. -/
def AGENT_MODELS : Role → String
  | .cube => "cube"
  | .core => "core"
  | .loop => "loop"
  | .wave => "promiser"
  | .line => "line"
  | .coin => "coin"
  | .code => "code"
  | .work => "work"

/-- The instance names given to the agents in `run_orchestration`. -/
def agentName : Role → String
  | .cube => "CubeOrchestrator"
  | .wave => "WavePromiser"
  | .loop => "LoopAdvisor"
  | .core => "CoreExecutor"
  | .work => "WorkValidator"
  | .code => "CodeComposer"
  | .line => "LineResourceManager"
  | .coin => "CoinRequestSecurer"

/-- `self.role` (the lowercased class name). -/
def roleName : Role → String
  | .cube => "cube"
  | .wave => "wave"
  | .core => "core"
  | .work => "work"
  | .loop => "loop"
  | .code => "code"
  | .line => "line"
  | .coin => "coin"

/-- Dispatch to each role's `_process_output`. -/
def process_output : Role → String → SharedState → SharedState
  | .cube => cube_process_output
  | .wave => wave_process_output
  | .core => core_process_output
  | .work => work_process_output
  | .loop => loop_process_output
  | .code => code_process_output
  | .line => line_process_output
  | .coin => coin_process_output

/-- The value object returned by one agent invocation (the wall-clock
`duration_s` field carries no logical content and is omitted). -/
structure AgentResult where
  agent : String
  role : String
  model : String
  output : String
  reasoning_hash : String
deriving DecidableEq, Repr

/-- The error string built when the backend call raises. -/
def backendErrorText (model e : String) : String :=
  "Error: Could not contact Ollama model " ++ squote ++ model ++ squote ++ ". " ++ e

/-- The text an agent works with when the backend call does not raise:
the stripped payload of a well-formed success (`.ok`), or the
descriptive error string for a failure the source's
`except aiohttp.ClientError` clause catches (`.error`). The uncaught
exception path of the try block (malformed 200 payloads) is not
representable here — see `BackendCall` and `reason_and_act_full`. -/
def responseText (model : String) : Except String String → String
  | .ok t => pyStrip t
  | .error e => backendErrorText model e

/-- `Agent.reason_and_act`, restricted to the non-raising backend
outcomes: a well-formed response payload, or an exception the source's
`except aiohttp.ClientError` clause catches. The meta prompt builder
`mp` is the role's `_create_meta_prompt`. The fragment hash is computed
from the meta prompt before the call, and the reducer is applied
whatever the call returned. The orchestration-loop model below is built
on this restriction (a run containing an uncaught backend exception
aborts mid-cycle and produces none of the completed cycles the loop
theorems quantify over); the full outcome space, including the
uncaught path, is embedded separately as `reason_and_act_full`. -/
def reason_and_act (name role model : String)
    (mp : String → SharedState → String)
    (proc : String → SharedState → SharedState)
    (prompt origin_hash : String) (s : SharedState)
    (backend : Except String String) : AgentResult × SharedState :=
  let meta_prompt := mp prompt s
  let fragment_hash := rehash_fragment origin_hash name meta_prompt
  let response_text := responseText model backend
  let s2 := proc response_text s
  ({ agent := name, role := role, model := model, output := response_text,
     reasoning_hash := fragment_hash }, s2)

/-- The full outcome space of the backend call in the try block of
`Agent.reason_and_act`:
* `response payload` — a 2xx answer whose body parses and whose
  `response` field is a string (`data.get("response", "")`);
* `transportError e` — an `aiohttp.ClientError` (connection failure,
  or `raise_for_status` on a non-2xx answer), the one class the
  `except` clause catches;
* `malformedPayload e` — a 2xx answer with a JSON content type whose
  body does not parse (`json.JSONDecodeError` from
  `await response.json()`), or a parsed payload that is not a dict or
  whose `response` field is not a string (`AttributeError` at
  `data.get(...)`/`.strip()`). These exceptions are not
  `aiohttp.ClientError`s, so the `except` clause does not catch them. -/
inductive BackendCall
  | response (payload : String)
  | transportError (e : String)
  | malformedPayload (e : String)

/-- Full embedding of `Agent.reason_and_act` over `BackendCall`. On the
uncaught `malformedPayload` path, the exception propagates out of
`reason_and_act` (`Except.error`): the reducer is not applied, and no
`AgentResult` is produced — the caller (`asyncio.gather` in the loop)
sees the raise. On the two non-raising paths it behaves exactly as
`reason_and_act`. -/
def reason_and_act_full (name role model : String)
    (mp : String → SharedState → String)
    (proc : String → SharedState → SharedState)
    (prompt origin_hash : String) (s : SharedState)
    (backend : BackendCall) : Except String (AgentResult × SharedState) :=
  let meta_prompt := mp prompt s
  let fragment_hash := rehash_fragment origin_hash name meta_prompt
  match backend with
  | .malformedPayload e => Except.error e
  | .response t =>
    let response_text := pyStrip t
    Except.ok (⟨name, role, model, response_text, fragment_hash⟩,
      proc response_text s)
  | .transportError e =>
    let response_text := backendErrorText model e
    Except.ok (⟨name, role, model, response_text, fragment_hash⟩,
      proc response_text s)

/-! ### The orchestration loop -/

/-- The six action words the decision prompt enumerates. -/
def sixActions : List String :=
  ["PLAN", "EXECUTE", "VALIDATE", "REFINE", "COMPOSE", "COMPLETE"]

/-- The fan-out table of `run_orchestration`: which agents a cycle
dispatches for the decided action (VALIDATE is guarded by the truthiness
of `last_chunk_id`; an unrecognized action dispatches nobody). -/
def agentsFor (action : String) (s : SharedState) : List Role :=
  if action = "PLAN" then [.wave, .loop, .line, .coin]
  else if action = "EXECUTE" then [.core]
  else if action = "VALIDATE" then
    if pyTruthy s.last_chunk_id then [.work] else []
  else if action = "REFINE" then [.loop]
  else if action = "COMPOSE" then [.code]
  else []

/-- One loop iteration, recorded for audit: the entropy observed, the
state entering the cycle, the decided action, the decision hash, the
dispatched fan-out, the chain head and state leaving the cycle. -/
structure CycleRec where
  idx : Nat
  entropyScore : ℚ
  stateBefore : SharedState
  action : String
  cubeHash : String
  dispatched : List Role
  headAfter : String
  stateAfter : SharedState

/-- The fan-out of one cycle. All gathered coroutines build their meta
prompts against the state committed after the decision (they all reach
their HTTP await before any response is processed), producing the
`AgentResult`s in task order with the decision hash as common parent;
the reducers then run one at a time on the shared dictionary. The
source applies reducers in completion order, which is nondeterministic;
this model applies them in task order (the spec flags the merge order
as an unpinned race). -/
def fanout (mps : Role → String → SharedState → String)
    (oracle : Nat → Role → Except String String)
    (prompt : String) (cy : Nat) (origin : String) (s : SharedState)
    (roles : List Role) : List AgentResult × SharedState :=
  let results := roles.map (fun r =>
    (reason_and_act (agentName r) (roleName r) (AGENT_MODELS r) (mps r)
      (process_output r) prompt origin s (oracle cy r)).1)
  let s3 := roles.foldl (fun st r =>
    process_output r (responseText (AGENT_MODELS r) (oracle cy r)) st) s
  (results, s3)

/-- One cycle of `run_orchestration`: store the entropy, let the
decision-maker act, stop on COMPLETE, otherwise fan out and advance the
chain head to the last gathered result (the head stays at the decision
hash when nothing is dispatched). The `Bool` is the loop-break flag. -/
def cycleStep (mps : Role → String → SharedState → String)
    (oracle : Nat → Role → Except String String)
    (prompt : String) (cy : Nat) (origin : String) (s : SharedState) :
    CycleRec × Bool :=
  let entropy := calculate_entropy s
  let s1 := { s with current_entropy_score := some entropy }
  let cubeCall := reason_and_act (agentName .cube) (roleName .cube)
    (AGENT_MODELS .cube) (mps .cube) (process_output .cube) prompt origin s1
    (oracle cy .cube)
  let hash2 := cubeCall.1.reasoning_hash
  let s2 := cubeCall.2
  let action := s2.current_action.getD "PLAN"
  if action = "COMPLETE" then
    ({ idx := cy, entropyScore := entropy, stateBefore := s, action := action,
       cubeHash := hash2, dispatched := [], headAfter := hash2,
       stateAfter := s2 }, true)
  else
    let roles := agentsFor action s2
    let fan := fanout mps oracle prompt cy hash2 s2 roles
    ({ idx := cy, entropyScore := entropy, stateBefore := s, action := action,
       cubeHash := hash2, dispatched := roles,
       headAfter := (fan.1.map AgentResult.reasoning_hash).getLastD hash2,
       stateAfter := fan.2 }, false)

/-- The cycle loop: run `cycleStep` until the break flag or the fuel
(the cycle budget) runs out, returning the trace and the final state. -/
def loopFrom (mps : Role → String → SharedState → String)
    (oracle : Nat → Role → Except String String) (prompt : String)
    (n cy : Nat) (origin : String) (s : SharedState) :
    List CycleRec × SharedState :=
  match n with
  | 0 => ([], s)
  | n + 1 =>
    let step := cycleStep mps oracle prompt cy origin s
    if step.2 then ([step.1], step.1.stateAfter)
    else
      let rest := loopFrom mps oracle prompt n (cy + 1) step.1.headAfter step.1.stateAfter
      (step.1 :: rest.1, rest.2)

/-- The placeholder emitted when no final script was composed. -/
def noScriptPlaceholder : String :=
  "# Composition failed. No final script was generated."

/-- `run_orchestration`: genesis hash, fresh shared state, at most 10
cycles, and the final artifact (`final_script` or the placeholder).
Returns the cycle trace, the final shared state and the emitted text. -/
def run_orchestration (mps : Role → String → SharedState → String)
    (oracle : Nat → Role → Except String String) (initial_prompt : String) :
    List CycleRec × SharedState × String :=
  let genesis_hash := create_genesis_hash initial_prompt
  let r := loopFrom mps oracle initial_prompt 10 1 genesis_hash initial_shared_state
  (r.1, r.2, r.2.final_script.getD noScriptPlaceholder)

/-! ### Reachable shared states -/

/-- A single write to the shared dictionary: a role's reducer applied to
some backend output, or the per-cycle entropy store. -/
inductive OrchEvent
  | agentOut (r : Role) (output : String)
  | entropyWrite (e : ℚ)

/-- Apply one write. -/
def applyEvent : OrchEvent → SharedState → SharedState
  | .agentOut r o, s => process_output r o s
  | .entropyWrite e, s => { s with current_entropy_score := some e }

/-- Fold a sequence of writes over a state. -/
def runEvents (evs : List OrchEvent) (s : SharedState) : SharedState :=
  evs.foldl (fun st ev => applyEvent ev st) s

/-- The states reachable in a run: any sequence of reducer applications
and entropy stores from the initial dictionary (an over-approximation
of the states the loop can produce in any completion order). -/
def Reachable (s : SharedState) : Prop :=
  ∃ evs, s = runEvents evs initial_shared_state

/-- All fields other than `current_action` and `current_entropy_score`
agree between two states. -/
def framePreserved (s t : SharedState) : Prop :=
  t.status = s.status ∧ t.code_chunks = s.code_chunks ∧
  t.validations = s.validations ∧ t.success_criteria = s.success_criteria ∧
  t.plan = s.plan ∧ t.advice = s.advice ∧ t.last_chunk_id = s.last_chunk_id ∧
  t.resource_management = s.resource_management ∧
  t.prompt_integrity = s.prompt_integrity ∧ t.final_script = s.final_script

/-- The action the orchestrator reads after the decision-maker consumes a
given backend result: the response text, quote-stripped and trimmed. -/
def decisionOf (b : Except String String) : String :=
  pyStrip (pyReplace (responseText (AGENT_MODELS Role.cube) b) "\x22" "")

/-- A backend that always answers with the same payload. -/
def constOracle (t : String) : Nat → Role → Except String String :=
  fun _ _ => Except.ok t

/-- Meta-prompt builders returning the empty prompt (the prompt text is
irrelevant to state evolution). -/
def noPrompts : Role → String → SharedState → String :=
  fun _ _ _ => ""

/-- A code-writer output carrying one fenced block (for witnesses). -/
def demoChunkOutput : String :=
  "Here is the chunk. ```python\nimport asyncio\n``` Done."

/-- The shared state right after a cycle's decision phase (entropy stored
and the decision-maker's reducer applied). -/
def decisionState (mps : Role → String → SharedState → String)
    (oracle : Nat → Role → Except String String)
    (prompt : String) (cy : Nat) (origin : String) (s : SharedState) : SharedState :=
  (reason_and_act (agentName Role.cube) (roleName Role.cube) (AGENT_MODELS Role.cube)
    (mps Role.cube) (process_output Role.cube) prompt origin
    { s with current_entropy_score := some (calculate_entropy s) }
    (oracle cy Role.cube)).2

/-- The provenance hash produced by a cycle's decision phase. -/
def decisionHash (mps : Role → String → SharedState → String)
    (oracle : Nat → Role → Except String String)
    (prompt : String) (cy : Nat) (origin : String) (s : SharedState) : String :=
  (reason_and_act (agentName Role.cube) (roleName Role.cube) (AGENT_MODELS Role.cube)
    (mps Role.cube) (process_output Role.cube) prompt origin
    { s with current_entropy_score := some (calculate_entropy s) }
    (oracle cy Role.cube)).1.reasoning_hash

/-- A throwaway cycle record (default for `List.getD`). -/
def dummyRec : CycleRec :=
  { idx := 0, entropyScore := 0, stateBefore := initial_shared_state, action := ""
    cubeHash := "", dispatched := [], headAfter := ""
    stateAfter := initial_shared_state }

/-! ### Decimal numerals and the `chunk_<n>` id sequence -/

/-- Decimal digit expansion of a natural number, most significant first. -/
def decDigits (n : Nat) : List Char :=
  if n < 10 then [Nat.digitChar n]
  else decDigits (n / 10) ++ [Nat.digitChar (n % 10)]
termination_by n
decreasing_by exact Nat.div_lt_self (by omega) (by omega)

/-- Read a decimal digit list back (used only to prove injectivity). -/
def valOfDigits (l : List Char) : Nat :=
  l.foldl (fun acc c => acc * 10 + (c.toNat - 48)) 0

/-- The id produced for the `n`-th appended chunk (`f"chunk_{n}"`). -/
def chunkName (n : Nat) : String :=
  "chunk_" ++ Nat.repr n

/-- The ids `chunk_1 … chunk_n` in order. -/
def seqIds (n : Nat) : List String :=
  (List.range n).map (fun i => chunkName (i + 1))

/-- The chunk-id invariant: the dictionary keys are exactly
`chunk_1 … chunk_n` in insertion order. -/
def ChunkInv (s : SharedState) : Prop :=
  s.code_chunks.map Prod.fst = seqIds s.code_chunks.length

/-! ### Theorems -/

theorem sha256_abc_vector : create_genesis_hash "abc" =
    "ba7816bf8f01cfea414140de5dae2223b00361a396177a9cb410ff61f20015ad" := by
  decide

theorem pySplit_example : pySplit "a--b--c" "--" = ["a", "b", "c"] := by decide

theorem pyReplace_example : pyReplace "say \x22hi\x22" "\x22" "" = "say hi" := by decide

theorem pyStrip_example : pyStrip "  hi there\n" = "hi there" := by decide

theorem pyContains_empty : pyContains "" "INTEGRITY OK" = false := by decide

theorem toDigitsCore_eq_decDigits :
    ∀ (fuel n : Nat) (ds : List Char), n < fuel →
      Nat.toDigitsCore 10 fuel n ds = decDigits n ++ ds := by
  intro fuel
  induction fuel with
  | zero => omega
  | succ f ih =>
    intro n ds h
    rw [Nat.toDigitsCore]
    by_cases h10 : n / 10 = 0
    · have hlt : n < 10 := by omega
      have : n % 10 = n := Nat.mod_eq_of_lt hlt
      simp [h10, decDigits, hlt, this]
    · have hge : 10 ≤ n := by omega
      have hfuel : n / 10 < f := by omega
      have hd : decDigits n = decDigits (n / 10) ++ [Nat.digitChar (n % 10)] := by
        rw [decDigits]
        rw [if_neg (by omega)]
      rw [if_neg h10, ih (n / 10) _ hfuel, hd]
      simp

theorem repr_eq_decDigits (n : Nat) : Nat.repr n = (decDigits n).asString := by
  show (Nat.toDigits 10 n).asString = _
  rw [Nat.toDigits, toDigitsCore_eq_decDigits (n + 1) n [] (by omega)]
  simp

theorem valOfDigits_append_digit (l : List Char) (c : Char) :
    valOfDigits (l ++ [c]) = valOfDigits l * 10 + (c.toNat - 48) := by
  simp [valOfDigits, List.foldl_append]

theorem digitChar_val (n : Nat) (h : n < 10) : (Nat.digitChar n).toNat - 48 = n := by
  interval_cases n <;> decide

theorem valOfDigits_decDigits (n : Nat) : valOfDigits (decDigits n) = n := by
  induction n using Nat.strong_induction_on with
  | _ n ih =>
    by_cases h : n < 10
    · rw [decDigits, if_pos h]
      simpa [valOfDigits] using digitChar_val n h
    · rw [decDigits, if_neg h, valOfDigits_append_digit,
          ih (n / 10) (Nat.div_lt_self (by omega) (by omega)),
          digitChar_val (n % 10) (Nat.mod_lt n (by omega))]
      omega

theorem natRepr_injective {m n : Nat} (h : Nat.repr m = Nat.repr n) : m = n := by
  rw [repr_eq_decDigits, repr_eq_decDigits] at h
  have hd : decDigits m = decDigits n := by
    simpa [List.asString] using congrArg String.data h
  calc m = valOfDigits (decDigits m) := (valOfDigits_decDigits m).symm
    _ = valOfDigits (decDigits n) := by rw [hd]
    _ = n := valOfDigits_decDigits n

theorem stringData_inj {a b : String} (h : a.data = b.data) : a = b := by
  cases a
  cases b
  exact congrArg String.mk h

theorem chunkName_injective {m n : Nat} (h : chunkName m = chunkName n) : m = n := by
  apply natRepr_injective
  have h2 := congrArg String.data h
  simp only [chunkName, String.data_append] at h2
  exact stringData_inj (List.append_cancel_left h2)

theorem seqIds_succ (n : Nat) : seqIds (n + 1) = seqIds n ++ [chunkName (n + 1)] := by
  simp [seqIds, List.range_succ]

theorem chunkName_not_mem_seqIds (n : Nat) : chunkName (n + 1) ∉ seqIds n := by
  simp only [seqIds, List.mem_map, List.mem_range]
  rintro ⟨i, hi, heq⟩
  have := chunkName_injective heq
  omega

theorem chunkInv_initial : ChunkInv initial_shared_state := by
  simp [ChunkInv, initial_shared_state, seqIds]

/-- Under the invariant, a fenced code-writer output appends the next
sequential id (which is fresh) and repoints `last_chunk_id` at it. -/
theorem core_appends (s : SharedState) (hinv : ChunkInv s) (o : String)
    (hf : pyContains o pythonFence = true) :
    (core_process_output o s).code_chunks
      = s.code_chunks ++ [(chunkName (s.code_chunks.length + 1), extractFence o)]
    ∧ (core_process_output o s).last_chunk_id
      = some (chunkName (s.code_chunks.length + 1))
    ∧ chunkName (s.code_chunks.length + 1) ∉ s.code_chunks.map Prod.fst := by
  have hnot : chunkName (s.code_chunks.length + 1) ∉ s.code_chunks.map Prod.fst := by
    rw [hinv]
    exact chunkName_not_mem_seqIds _
  have hcon : ((s.code_chunks.map Prod.fst).contains
      ("chunk_" ++ Nat.repr (s.code_chunks.length + 1))) = false := by
    cases hc : (s.code_chunks.map Prod.fst).contains
        ("chunk_" ++ Nat.repr (s.code_chunks.length + 1))
    · rfl
    · exact absurd (by simpa [List.contains, chunkName] using hc) hnot
  refine ⟨?_, ?_, hnot⟩
  · simp only [core_process_output, hf, if_true, chunkName]
    simp only [dictInsert, hcon]
    simp
  · simp [core_process_output, hf, chunkName]

/-- Chunk preservation transfers the invariant. -/
theorem chunks_eq_inv {s t : SharedState} (h : t.code_chunks = s.code_chunks)
    (hinv : ChunkInv s) :
    ChunkInv t ∧ ∃ tl, t.code_chunks = s.code_chunks ++ tl := by
  constructor
  · unfold ChunkInv
    rw [h]
    exact hinv
  · exact ⟨[], by simp [h]⟩

/-- Every single write preserves the chunk-id invariant and can only
append to `code_chunks` (never remove or overwrite). -/
theorem chunkInv_event (ev : OrchEvent) (s : SharedState) (hinv : ChunkInv s) :
    ChunkInv (applyEvent ev s) ∧
    ∃ t, (applyEvent ev s).code_chunks = s.code_chunks ++ t := by
  cases ev with
  | entropyWrite e => exact chunks_eq_inv (by simp [applyEvent]) hinv
  | agentOut r o =>
    cases r with
    | core =>
      by_cases hf : pyContains o pythonFence = true
      · obtain ⟨h1, _, _⟩ := core_appends s hinv o hf
        have happ : (applyEvent (OrchEvent.agentOut Role.core o) s).code_chunks
            = s.code_chunks ++ [(chunkName (s.code_chunks.length + 1), extractFence o)] := by
          simpa [applyEvent, process_output] using h1
        refine ⟨?_, _, happ⟩
        unfold ChunkInv
        rw [happ]
        simp [seqIds_succ]
        exact hinv
      · refine chunks_eq_inv ?_ hinv
        have hf2 : pyContains o pythonFence = false := by
          cases hc : pyContains o pythonFence
          · rfl
          · exact absurd hc hf
        simp [applyEvent, process_output, core_process_output, hf2]
    | cube => exact chunks_eq_inv (by simp [applyEvent, process_output, cube_process_output]) hinv
    | wave =>
      refine chunks_eq_inv ?_ hinv
      simp only [applyEvent, process_output, wave_process_output]
      split <;> rfl
    | work =>
      refine chunks_eq_inv ?_ hinv
      simp only [applyEvent, process_output, work_process_output]
      split
      · split <;> rfl
      · rfl
    | loop =>
      refine chunks_eq_inv ?_ hinv
      simp only [applyEvent, process_output, loop_process_output]
      split <;> rfl
    | code =>
      refine chunks_eq_inv ?_ hinv
      simp only [applyEvent, process_output, code_process_output]
      split <;> rfl
    | line => exact chunks_eq_inv (by simp [applyEvent, process_output, line_process_output]) hinv
    | coin => exact chunks_eq_inv (by simp [applyEvent, process_output, coin_process_output]) hinv

theorem chunkInv_runEvents :
    ∀ (evs : List OrchEvent) (s0 : SharedState), ChunkInv s0 →
      ChunkInv (runEvents evs s0)
  | [], _, h => h
  | ev :: evs, s0, h => by
    have step := (chunkInv_event ev s0 h).1
    simpa [runEvents] using chunkInv_runEvents evs (applyEvent ev s0) step

theorem reachable_chunkInv (s : SharedState) (h : Reachable s) : ChunkInv s := by
  obtain ⟨evs, rfl⟩ := h
  exact chunkInv_runEvents evs initial_shared_state chunkInv_initial

/-- No single write ever changes an existing `success_criteria` value. -/
theorem success_preserved (ev : OrchEvent) (s : SharedState) (v : String)
    (h : s.success_criteria = some v) :
    (applyEvent ev s).success_criteria = some v := by
  cases ev with
  | entropyWrite e => simpa [applyEvent] using h
  | agentOut r o =>
    cases r with
    | cube => simpa [applyEvent, process_output, cube_process_output] using h
    | wave => simp [applyEvent, process_output, wave_process_output, h]
    | core =>
      simp only [applyEvent, process_output, core_process_output]
      split <;> simpa using h
    | work =>
      simp only [applyEvent, process_output, work_process_output]
      split <;> try split
      all_goals simpa using h
    | loop =>
      simp only [applyEvent, process_output, loop_process_output]
      split <;> simpa using h
    | code =>
      simp only [applyEvent, process_output, code_process_output]
      split <;> simpa using h
    | line => simpa [applyEvent, process_output, line_process_output] using h
    | coin => simpa [applyEvent, process_output, coin_process_output] using h

/-! ### Cycle-level lemmas -/

theorem cycleStep_entropy (mps : Role → String → SharedState → String)
    (oracle : Nat → Role → Except String String) (prompt : String)
    (cy : Nat) (origin : String) (s : SharedState) :
    ((cycleStep mps oracle prompt cy origin s).1).entropyScore
      = calculate_entropy s := by
  unfold cycleStep
  dsimp only
  split <;> rfl

theorem cycleStep_idx (mps : Role → String → SharedState → String)
    (oracle : Nat → Role → Except String String) (prompt : String)
    (cy : Nat) (origin : String) (s : SharedState) :
    ((cycleStep mps oracle prompt cy origin s).1).idx = cy := by
  unfold cycleStep
  dsimp only
  split <;> rfl

theorem cycleStep_action_eq (mps : Role → String → SharedState → String)
    (oracle : Nat → Role → Except String String) (prompt : String)
    (cy : Nat) (origin : String) (s : SharedState) :
    ((cycleStep mps oracle prompt cy origin s).1).action
      = decisionOf (oracle cy Role.cube) := by
  unfold cycleStep
  dsimp only
  split <;>
    simp [reason_and_act, process_output, cube_process_output, decisionOf]

theorem cycleStep_done_iff (mps : Role → String → SharedState → String)
    (oracle : Nat → Role → Except String String) (prompt : String)
    (cy : Nat) (origin : String) (s : SharedState) :
    (cycleStep mps oracle prompt cy origin s).2 = true ↔
      ((cycleStep mps oracle prompt cy origin s).1).action = "COMPLETE" := by
  unfold cycleStep
  dsimp only
  split
  · rename_i h
    simp [h]
  · rename_i h
    simp [h]

theorem cycleStep_done_dispatched (mps : Role → String → SharedState → String)
    (oracle : Nat → Role → Except String String) (prompt : String)
    (cy : Nat) (origin : String) (s : SharedState)
    (h : (cycleStep mps oracle prompt cy origin s).2 = true) :
    ((cycleStep mps oracle prompt cy origin s).1).dispatched = [] := by
  revert h
  unfold cycleStep
  dsimp only
  split
  · intro _
    rfl
  · intro h
    exact absurd h (by simp)

/-- Reducers of the non-decision roles never touch `current_action`. -/
theorem process_output_action (r : Role) (hr : r ≠ Role.cube) (o : String)
    (s : SharedState) : (process_output r o s).current_action = s.current_action := by
  cases r with
  | cube => exact absurd rfl hr
  | wave =>
    simp only [process_output, wave_process_output]
    split <;> rfl
  | core =>
    simp only [process_output, core_process_output]
    split <;> rfl
  | work =>
    simp only [process_output, work_process_output]
    split
    · split <;> rfl
    · rfl
  | loop =>
    simp only [process_output, loop_process_output]
    split <;> rfl
  | code =>
    simp only [process_output, code_process_output]
    split <;> rfl
  | line => rfl
  | coin => rfl

theorem foldl_proc_action (g : Role → String) :
    ∀ (roles : List Role), Role.cube ∉ roles → ∀ s : SharedState,
      (roles.foldl (fun st r => process_output r (g r) st) s).current_action
        = s.current_action
  | [], _, _ => rfl
  | r :: rest, h, s => by
    have hr : r ≠ Role.cube := fun he => h (he ▸ List.mem_cons_self r rest)
    have hrest : Role.cube ∉ rest := fun hm => h (List.mem_cons_of_mem r hm)
    simp only [List.foldl_cons]
    rw [foldl_proc_action g rest hrest, process_output_action r hr]

theorem agentsFor_cube_not_mem (a : String) (s : SharedState) :
    Role.cube ∉ agentsFor a s := by
  unfold agentsFor
  split_ifs <;> decide

/-- After any cycle, `current_action` is exactly the cleaned decision text
of that cycle's backend result for the decision-maker. -/
theorem cycleStep_stateAfter_action (mps : Role → String → SharedState → String)
    (oracle : Nat → Role → Except String String) (prompt : String)
    (cy : Nat) (origin : String) (s : SharedState) :
    ((cycleStep mps oracle prompt cy origin s).1).stateAfter.current_action
      = some (decisionOf (oracle cy Role.cube)) := by
  unfold cycleStep
  dsimp only
  split
  · simp [reason_and_act, process_output, cube_process_output, decisionOf]
  · simp only [fanout]
    rw [foldl_proc_action _ _ (agentsFor_cube_not_mem _ _)]
    simp [reason_and_act, process_output, cube_process_output, decisionOf]

/-! ### Loop-level lemmas -/

theorem loopFrom_length_le (mps : Role → String → SharedState → String)
    (oracle : Nat → Role → Except String String) (prompt : String) :
    ∀ (n cy : Nat) (origin : String) (s : SharedState),
      ((loopFrom mps oracle prompt n cy origin s).1).length ≤ n
  | 0, _, _, _ => by simp [loopFrom]
  | n + 1, cy, origin, s => by
    rw [loopFrom]
    dsimp only
    split
    · simp
    · simpa using loopFrom_length_le mps oracle prompt n (cy + 1) _ _

theorem loopFrom_succ (mps : Role → String → SharedState → String)
    (oracle : Nat → Role → Except String String) (prompt : String)
    (n cy : Nat) (origin : String) (s : SharedState) :
    loopFrom mps oracle prompt (n + 1) cy origin s =
      (if (cycleStep mps oracle prompt cy origin s).2 then
        ([(cycleStep mps oracle prompt cy origin s).1],
         (cycleStep mps oracle prompt cy origin s).1.stateAfter)
      else
        ((cycleStep mps oracle prompt cy origin s).1 ::
          (loopFrom mps oracle prompt n (cy + 1)
            (cycleStep mps oracle prompt cy origin s).1.headAfter
            (cycleStep mps oracle prompt cy origin s).1.stateAfter).1,
         (loopFrom mps oracle prompt n (cy + 1)
            (cycleStep mps oracle prompt cy origin s).1.headAfter
            (cycleStep mps oracle prompt cy origin s).1.stateAfter).2)) := rfl

/-- A COMPLETE record closes the trace: it is the last record and its
fan-out is empty. -/
theorem loopFrom_complete_last (mps : Role → String → SharedState → String)
    (oracle : Nat → Role → Except String String) (prompt : String) :
    ∀ (n cy : Nat) (origin : String) (s : SharedState) (d : CycleRec) (i : Nat),
      i < ((loopFrom mps oracle prompt n cy origin s).1).length →
      (((loopFrom mps oracle prompt n cy origin s).1).getD i d).action = "COMPLETE" →
        i = ((loopFrom mps oracle prompt n cy origin s).1).length - 1 ∧
        (((loopFrom mps oracle prompt n cy origin s).1).getD i d).dispatched = [] := by
  intro n
  induction n with
  | zero =>
    intro cy origin s d i hi
    simp [loopFrom] at hi
  | succ n ih =>
    intro cy origin s d i hi hact
    cases hstep : (cycleStep mps oracle prompt cy origin s).2 with
    | true =>
      rw [loopFrom_succ, if_pos hstep] at hi hact ⊢
      have hi0 : i = 0 := by
        simp at hi
        omega
      subst hi0
      exact ⟨by simp, by
        simpa using cycleStep_done_dispatched mps oracle prompt cy origin s hstep⟩
    | false =>
      rw [loopFrom_succ, if_neg (by simp [hstep])] at hi hact ⊢
      match i with
      | 0 =>
        exfalso
        simp only [List.getD_cons_zero] at hact
        have : (cycleStep mps oracle prompt cy origin s).2 = true :=
          (cycleStep_done_iff mps oracle prompt cy origin s).2 hact
        rw [hstep] at this
        exact Bool.false_ne_true this
      | j + 1 =>
        have hj : j < ((loopFrom mps oracle prompt n (cy + 1)
            ((cycleStep mps oracle prompt cy origin s).1).headAfter
            ((cycleStep mps oracle prompt cy origin s).1).stateAfter).1).length := by
          simpa using hi
        obtain ⟨h1, h2⟩ := ih (cy + 1)
          ((cycleStep mps oracle prompt cy origin s).1).headAfter
          ((cycleStep mps oracle prompt cy origin s).1).stateAfter d j hj
          (by simpa using hact)
        constructor
        · simp only [List.length_cons]
          omega
        · simpa using h2

/-- When every decision output cleans to an enumerated action, every
cycle leaves `current_action` set to one of the six. -/
theorem loopFrom_mem_action (mps : Role → String → SharedState → String)
    (oracle : Nat → Role → Except String String) (prompt : String)
    (hor : ∀ cy, decisionOf (oracle cy Role.cube) ∈ sixActions) :
    ∀ (n cy : Nat) (origin : String) (s : SharedState),
      ∀ rec ∈ (loopFrom mps oracle prompt n cy origin s).1,
        ∃ a ∈ sixActions, rec.stateAfter.current_action = some a := by
  intro n
  induction n with
  | zero =>
    intro cy origin s rec h
    simp [loopFrom] at h
  | succ n ih =>
    intro cy origin s rec h
    cases hstep : (cycleStep mps oracle prompt cy origin s).2 with
    | true =>
      rw [loopFrom_succ, if_pos hstep] at h
      simp only [List.mem_singleton] at h
      subst h
      exact ⟨decisionOf (oracle cy Role.cube), hor cy,
        cycleStep_stateAfter_action mps oracle prompt cy origin s⟩
    | false =>
      rw [loopFrom_succ, if_neg (by simp [hstep])] at h
      simp only [List.mem_cons] at h
      rcases h with h | h
      · subst h
        exact ⟨decisionOf (oracle cy Role.cube), hor cy,
          cycleStep_stateAfter_action mps oracle prompt cy origin s⟩
      · exact ih (cy + 1) _ _ rec h

/-- The entropy recorded by the first cycle of any run is the entropy of
the fresh shared dictionary. -/
theorem run_first_entropy (mps : Role → String → SharedState → String)
    (oracle : Nat → Role → Except String String) (g : String) :
    (((run_orchestration mps oracle g).1).map CycleRec.entropyScore).headD 0
      = calculate_entropy initial_shared_state := by
  show (((loopFrom mps oracle g (9 + 1) 1 (create_genesis_hash g)
      initial_shared_state).1).map CycleRec.entropyScore).headD 0 = _
  rw [loopFrom_succ]
  cases hstep : (cycleStep mps oracle g 1 (create_genesis_hash g)
      initial_shared_state).2 <;>
    simp [cycleStep_entropy]

/-- The entropy of the fresh dictionary: +0.5 (no integrity report),
+1.0 (no plan), +0.8 (no success criteria). -/
theorem entropy_initial : calculate_entropy initial_shared_state = 23/10 := by
  simp +decide [calculate_entropy, initial_shared_state, pyTruthy]
  norm_num

/-! ### Claims -/

/-- C1: `create_genesis_hash(g)` is the SHA-256 hex digest of the goal
string and `rehash_fragment(h, a, t)` is the SHA-256 hex digest of the
three inputs joined by the fixed ":" separator; both are pure functions
of exactly those inputs, so identical inputs always yield the identical
hash. The two closed equalities validate the embedding against digests
computed by an independent SHA-256 implementation. -/
theorem c1_provenance_hashing :
    (∀ g : String, create_genesis_hash g = sha256Hex (utf8Bytes g)) ∧
    (∀ h a t : String,
      rehash_fragment h a t = sha256Hex (utf8Bytes (h ++ ":" ++ a ++ ":" ++ t))) ∧
    (∀ h a t : String,
      rehash_fragment h a t = create_genesis_hash (h ++ ":" ++ a ++ ":" ++ t)) ∧
    create_genesis_hash "abc"
      = "ba7816bf8f01cfea414140de5dae2223b00361a396177a9cb410ff61f20015ad" ∧
    rehash_fragment "h" "a" "t"
      = "d2509d6c8f2234d06fa5993ca664d4181d03685c1d20dc01ed2e88b16c44c04e" :=
  ⟨fun _ => rfl, fun _ _ _ => rfl, fun _ _ _ => rfl, by decide, by decide⟩

/-- C2 counterexample: the decision reducer stores whatever cleaned text
the backend returned, so a run whose decision backend answers "GARBAGE"
reaches a state whose `current_action` is outside the six enumerated
actions — the claimed invariant fails on the code. -/
theorem c2_counterexample :
    (((run_orchestration noPrompts (constOracle "GARBAGE") "goal").1).map
      (fun rec => rec.stateAfter.current_action)).headD none = some "GARBAGE" ∧
    "GARBAGE" ∉ sixActions := by
  constructor
  · decide
  · decide

/-- C2 (amended): after every cycle, `current_action` is the cleaned
decision output of that cycle; it therefore stays within the six
enumerated actions provided every decision output cleans to one of the
six — the reducer itself enforces no enumeration. -/
theorem c2_action_enum (mps : Role → String → SharedState → String)
    (oracle : Nat → Role → Except String String) (g : String)
    (hor : ∀ cy, decisionOf (oracle cy Role.cube) ∈ sixActions) :
    ∀ rec ∈ (run_orchestration mps oracle g).1,
      rec.stateAfter.current_action = none ∨
      ∃ a ∈ sixActions, rec.stateAfter.current_action = some a := by
  intro rec h
  exact Or.inr (loopFrom_mem_action mps oracle g hor 10 1
    (create_genesis_hash g) initial_shared_state rec h)

/-- C2 witness: a run whose decision backend always answers "PLAN"
satisfies the amended invariant. -/
theorem c2_witness :
    (∀ cy, decisionOf (constOracle "PLAN" cy Role.cube) ∈ sixActions) ∧
    (∀ rec ∈ (run_orchestration noPrompts (constOracle "PLAN") "demo").1,
      rec.stateAfter.current_action = none ∨
      ∃ a ∈ sixActions, rec.stateAfter.current_action = some a) := by
  have hor : ∀ cy, decisionOf (constOracle "PLAN" cy Role.cube) ∈ sixActions := by
    intro cy
    show decisionOf (Except.ok "PLAN") ∈ sixActions
    decide
  exact ⟨hor, c2_action_enum noPrompts (constOracle "PLAN") "demo" hor⟩

/-- C3 counterexample: the first cycle of every run scores 2.3, not the
claimed 1.8, because the 0.5 integrity penalty also fires when no
integrity report exists yet (`'INTEGRITY OK' not in ''` is true). -/
theorem c3_counterexample :
    (((run_orchestration noPrompts (constOracle "PLAN") "fetch three URLs").1).map
      CycleRec.entropyScore).headD 0 = 23/10 ∧ (23/10 : ℚ) ≠ 9/5 := by
  constructor
  · rw [run_first_entropy]
    exact entropy_initial
  · norm_num

/-- C3 (amended): the 0.5 integrity penalty applies whenever the
integrity report — defaulting to the empty string when absent — does not
contain "INTEGRITY OK", in particular when the report is absent; hence
the entropy of the first cycle's initial state is 2.3 for every goal
(1.0 no plan + 0.8 no criteria + 0.5 no integrity report). -/
theorem c3_entropy_integrity :
    (∀ s : SharedState,
      calculate_entropy s =
        (if pyContains (s.prompt_integrity.getD "") "INTEGRITY OK" then 0 else 1/2)
          + entropyRest s) ∧
    (∀ s : SharedState, s.prompt_integrity = none →
      calculate_entropy s = 1/2 + entropyRest s) ∧
    (∀ (mps : Role → String → SharedState → String)
       (oracle : Nat → Role → Except String String) (g : String),
      (((run_orchestration mps oracle g).1).map CycleRec.entropyScore).headD 0
        = 23/10) := by
  have hdec : ∀ s : SharedState,
      calculate_entropy s =
        (if pyContains (s.prompt_integrity.getD "") "INTEGRITY OK" then 0 else 1/2)
          + entropyRest s := by
    intro s
    unfold calculate_entropy entropyRest
    ring
  refine ⟨hdec, ?_, ?_⟩
  · intro s h
    rw [hdec s, h]
    simp +decide
  · intro mps oracle g
    rw [run_first_entropy]
    exact entropy_initial

/-- C3 witness: the fresh dictionary has no integrity report, and its
entropy decomposes as 0.5 plus the remaining penalties. -/
theorem c3_witness :
    initial_shared_state.prompt_integrity = none ∧
    calculate_entropy initial_shared_state = 1/2 + entropyRest initial_shared_state :=
  ⟨rfl, c3_entropy_integrity.2.1 initial_shared_state rfl⟩

/-- On the non-raising backend outcomes, the full embedding agrees with
the restricted `reason_and_act` the loop model uses. -/
theorem reason_and_act_full_agrees (name role model : String)
    (mp : String → SharedState → String) (proc : String → SharedState → SharedState)
    (prompt origin : String) (s : SharedState) (e t : String) :
    reason_and_act_full name role model mp proc prompt origin s
        (BackendCall.response t)
      = Except.ok (reason_and_act name role model mp proc prompt origin s
          (Except.ok t)) ∧
    reason_and_act_full name role model mp proc prompt origin s
        (BackendCall.transportError e)
      = Except.ok (reason_and_act name role model mp proc prompt origin s
          (Except.error e)) :=
  ⟨rfl, rfl⟩

/-- C4 counterexample: not every backend failure is converted into a
value. A 200 answer with a malformed JSON body is a backend failure the
source's `except aiohttp.ClientError` clause does not catch: the
`json.JSONDecodeError` raises past `reason_and_act` (the `Except.error`
branch of the full embedding) — no error-string output, no reducer
application, no `AgentResult` with a provenance hash. -/
theorem c4_counterexample :
    reason_and_act_full (agentName Role.cube) (roleName Role.cube)
      (AGENT_MODELS Role.cube) (noPrompts Role.cube) (process_output Role.cube)
      "goal" "h0" initial_shared_state
      (BackendCall.malformedPayload "Expecting value: line 1 column 1 (char 0)")
      = Except.error "Expecting value: line 1 column 1 (char 0)" :=
  rfl

/-- C4 (amended): for the backend failures the source's
`except aiohttp.ClientError` clause catches — transport failures and
non-2xx statuses — the failure never raises past `reason_and_act`: it
is converted into the descriptive error string used as the output, the
role's reducer is still applied with that string, and the result
carries the provenance hash computed from the meta prompt, identical to
the success case. A malformed 2xx payload, however, raises past
`reason_and_act` with the state unreduced and no result produced. -/
theorem c4_failure_semantics (name role model : String)
    (mp : String → SharedState → String) (proc : String → SharedState → SharedState)
    (prompt origin : String) (s : SharedState) (e t em : String) :
    reason_and_act_full name role model mp proc prompt origin s
        (BackendCall.transportError e)
      = Except.ok (⟨name, role, model, backendErrorText model e,
          rehash_fragment origin name (mp prompt s)⟩,
        proc (backendErrorText model e) s) ∧
    reason_and_act_full name role model mp proc prompt origin s
        (BackendCall.response t)
      = Except.ok (⟨name, role, model, pyStrip t,
          rehash_fragment origin name (mp prompt s)⟩,
        proc (pyStrip t) s) ∧
    reason_and_act_full name role model mp proc prompt origin s
        (BackendCall.malformedPayload em)
      = Except.error em :=
  ⟨rfl, rfl, rfl⟩

/-- C5: `success_criteria` is write-once: no reducer or orchestrator
write ever changes an existing value, the goal-definer writes it when
absent, and running the goal-definer twice keeps the first output. -/
theorem c5_success_write_once :
    (∀ (ev : OrchEvent) (s : SharedState) (v : String),
      s.success_criteria = some v → (applyEvent ev s).success_criteria = some v) ∧
    (∀ (o : String) (s : SharedState), s.success_criteria = none →
      (wave_process_output o s).success_criteria = some o) ∧
    (∀ (o1 o2 : String) (s : SharedState), s.success_criteria = none →
      (wave_process_output o2 (wave_process_output o1 s)).success_criteria
        = some o1) := by
  refine ⟨success_preserved, ?_, ?_⟩
  · intro o s h
    simp [wave_process_output, h]
  · intro o1 o2 s h
    have h1 : (wave_process_output o1 s).success_criteria = some o1 := by
      simp [wave_process_output, h]
    have h2 := success_preserved (OrchEvent.agentOut Role.wave o2) _ _ h1
    simpa [applyEvent, process_output] using h2

/-- C5 witness: two different goal-definer outputs on the fresh state
leave the first value in place. -/
theorem c5_witness :
    initial_shared_state.success_criteria = none ∧
    (wave_process_output "2. different" (wave_process_output "1. criteria"
      initial_shared_state)).success_criteria = some "1. criteria" :=
  ⟨rfl, c5_success_write_once.2.2 "1. criteria" "2. different"
    initial_shared_state rfl⟩

/-- C6: at every reachable state the chunk ids are exactly the
sequential tokens `chunk_1 … chunk_n` in insertion order; every write
can only append to `code_chunks` (ids are never removed or reused, also
when chunks are later marked INVALID); and a fenced code-writer output
appends the fresh id `chunk_<n+1>` — which is not among the existing
ids — and repoints `last_chunk_id` at it. -/
theorem c6_chunk_ids (s : SharedState) (hs : Reachable s) :
    s.code_chunks.map Prod.fst = seqIds s.code_chunks.length ∧
    (∀ ev : OrchEvent, ∃ t, (applyEvent ev s).code_chunks = s.code_chunks ++ t) ∧
    (∀ o : String, pyContains o pythonFence = true →
      (core_process_output o s).code_chunks
        = s.code_chunks ++ [(chunkName (s.code_chunks.length + 1), extractFence o)] ∧
      (core_process_output o s).last_chunk_id
        = some (chunkName (s.code_chunks.length + 1)) ∧
      chunkName (s.code_chunks.length + 1) ∉ s.code_chunks.map Prod.fst) := by
  have hinv := reachable_chunkInv s hs
  exact ⟨hinv, fun ev => (chunkInv_event ev s hinv).2,
    fun o hf => core_appends s hinv o hf⟩

/-- C6 witness: from the (reachable) fresh state, a fenced output
appends `chunk_1`. -/
theorem c6_witness :
    Reachable initial_shared_state ∧
    pyContains demoChunkOutput pythonFence = true ∧
    (core_process_output demoChunkOutput initial_shared_state).code_chunks
      = initial_shared_state.code_chunks ++
        [(chunkName (initial_shared_state.code_chunks.length + 1),
          extractFence demoChunkOutput)] := by
  have hr : Reachable initial_shared_state := ⟨[], rfl⟩
  have hf : pyContains demoChunkOutput pythonFence = true := by decide
  exact ⟨hr, hf, ((c6_chunk_ids initial_shared_state hr).2.2 demoChunkOutput hf).1⟩

/-! ### C7-C10: the cycle state machine -/

theorem cycleStep_eq (mps : Role → String → SharedState → String)
    (oracle : Nat → Role → Except String String) (prompt : String)
    (cy : Nat) (origin : String) (s : SharedState) :
    cycleStep mps oracle prompt cy origin s =
      (let s2 := decisionState mps oracle prompt cy origin s
       let h2 := decisionHash mps oracle prompt cy origin s
       let action := s2.current_action.getD "PLAN"
       if action = "COMPLETE" then
         ({ idx := cy, entropyScore := calculate_entropy s, stateBefore := s,
            action := action, cubeHash := h2, dispatched := [], headAfter := h2,
            stateAfter := s2 }, true)
       else
         let roles := agentsFor action s2
         let fan := fanout mps oracle prompt cy h2 s2 roles
         ({ idx := cy, entropyScore := calculate_entropy s, stateBefore := s,
            action := action, cubeHash := h2, dispatched := roles,
            headAfter := (fan.1.map AgentResult.reasoning_hash).getLastD h2,
            stateAfter := fan.2 }, false)) := rfl

theorem decisionState_action (mps : Role → String → SharedState → String)
    (oracle : Nat → Role → Except String String) (prompt : String)
    (cy : Nat) (origin : String) (s : SharedState) :
    (decisionState mps oracle prompt cy origin s).current_action
      = some (decisionOf (oracle cy Role.cube)) := by
  simp [decisionState, reason_and_act, process_output, cube_process_output, decisionOf]

theorem decisionState_getD (mps : Role → String → SharedState → String)
    (oracle : Nat → Role → Except String String) (prompt : String)
    (cy : Nat) (origin : String) (s : SharedState) :
    (decisionState mps oracle prompt cy origin s).current_action.getD "PLAN"
      = decisionOf (oracle cy Role.cube) := by
  rw [decisionState_action]
  rfl

theorem decisionState_frame (mps : Role → String → SharedState → String)
    (oracle : Nat → Role → Except String String) (prompt : String)
    (cy : Nat) (origin : String) (s : SharedState) :
    framePreserved s (decisionState mps oracle prompt cy origin s) :=
  ⟨rfl, rfl, rfl, rfl, rfl, rfl, rfl, rfl, rfl, rfl⟩

theorem decisionState_last_chunk (mps : Role → String → SharedState → String)
    (oracle : Nat → Role → Except String String) (prompt : String)
    (cy : Nat) (origin : String) (s : SharedState)
    (h : s.last_chunk_id = none) :
    (decisionState mps oracle prompt cy origin s).last_chunk_id = none :=
  h

/-- C7: whenever a cycle's decided action is COMPLETE, the loop
terminates on that same cycle: the record is the last one of the run's
trace and no agents are fanned out, regardless of remaining budget. -/
theorem c7_complete_terminates (mps : Role → String → SharedState → String)
    (oracle : Nat → Role → Except String String) (g : String) (d : CycleRec)
    (i : Nat) (hi : i < ((run_orchestration mps oracle g).1).length)
    (hact : (((run_orchestration mps oracle g).1).getD i d).action = "COMPLETE") :
    i = ((run_orchestration mps oracle g).1).length - 1 ∧
    (((run_orchestration mps oracle g).1).getD i d).dispatched = [] :=
  loopFrom_complete_last mps oracle g 10 1 (create_genesis_hash g)
    initial_shared_state d i hi hact

/-- C7 witness: a run whose decision backend immediately answers
COMPLETE stops after its first cycle with an empty fan-out. -/
theorem c7_witness :
    0 < ((run_orchestration noPrompts (constOracle "COMPLETE") "done").1).length ∧
    (0 = ((run_orchestration noPrompts (constOracle "COMPLETE") "done").1).length - 1 ∧
      (((run_orchestration noPrompts (constOracle "COMPLETE") "done").1).getD 0
        dummyRec).dispatched = []) := by
  have hi : 0 < ((run_orchestration noPrompts (constOracle "COMPLETE") "done").1).length := by
    decide
  have hact : (((run_orchestration noPrompts (constOracle "COMPLETE") "done").1).getD 0
      dummyRec).action = "COMPLETE" := by
    decide
  exact ⟨hi, c7_complete_terminates noPrompts (constOracle "COMPLETE") "done"
    dummyRec 0 hi hact⟩

/-- C8: the loop runs at most 10 cycles, and the run's emitted artifact
is `final_script` when present and otherwise the fixed placeholder — the
run is a total function, so exhausting the budget is not an error. -/
theorem c8_cycle_budget (mps : Role → String → SharedState → String)
    (oracle : Nat → Role → Except String String) (g : String) :
    ((run_orchestration mps oracle g).1).length ≤ 10 ∧
    (run_orchestration mps oracle g).2.2
      = ((run_orchestration mps oracle g).2.1).final_script.getD noScriptPlaceholder :=
  ⟨loopFrom_length_le mps oracle g 10 1 (create_genesis_hash g) initial_shared_state,
   rfl⟩

/-- C9: a VALIDATE cycle with `last_chunk_id` unset dispatches no agent,
leaves every field but `current_action` and `current_entropy_score`
unchanged, and leaves the chain head at the decision hash. -/
theorem c9_validate_noop (mps : Role → String → SharedState → String)
    (oracle : Nat → Role → Except String String) (prompt : String)
    (cy : Nat) (origin : String) (s : SharedState)
    (h1 : s.last_chunk_id = none)
    (h2 : ((cycleStep mps oracle prompt cy origin s).1).action = "VALIDATE") :
    ((cycleStep mps oracle prompt cy origin s).1).dispatched = [] ∧
    ((cycleStep mps oracle prompt cy origin s).1).headAfter
      = ((cycleStep mps oracle prompt cy origin s).1).cubeHash ∧
    framePreserved s ((cycleStep mps oracle prompt cy origin s).1).stateAfter := by
  rw [cycleStep_eq] at h2 ⊢
  dsimp only at h2 ⊢
  rw [decisionState_getD] at h2 ⊢
  split at h2
  · rename_i hc
    dsimp only at h2
    rw [h2] at hc
    exact absurd hc (by decide)
  · rename_i hc
    dsimp only at h2
    rw [if_neg hc]
    have hroles : agentsFor (decisionOf (oracle cy Role.cube))
        (decisionState mps oracle prompt cy origin s) = [] := by
      rw [h2]
      simp +decide [agentsFor, pyTruthy,
        decisionState_last_chunk mps oracle prompt cy origin s h1]
    rw [hroles]
    refine ⟨rfl, by simp [fanout], ?_⟩
    simpa [fanout] using decisionState_frame mps oracle prompt cy origin s

/-- C9 witness: from the fresh state (no chunk yet), a VALIDATE decision
is a no-op cycle. -/
theorem c9_witness :
    initial_shared_state.last_chunk_id = none ∧
    ((cycleStep noPrompts (constOracle "VALIDATE") "g" 1 "h0"
      initial_shared_state).1).action = "VALIDATE" ∧
    (((cycleStep noPrompts (constOracle "VALIDATE") "g" 1 "h0"
        initial_shared_state).1).dispatched = [] ∧
      ((cycleStep noPrompts (constOracle "VALIDATE") "g" 1 "h0"
        initial_shared_state).1).headAfter
        = ((cycleStep noPrompts (constOracle "VALIDATE") "g" 1 "h0"
          initial_shared_state).1).cubeHash ∧
      framePreserved initial_shared_state
        ((cycleStep noPrompts (constOracle "VALIDATE") "g" 1 "h0"
          initial_shared_state).1).stateAfter) := by
  have h1 : initial_shared_state.last_chunk_id = none := rfl
  have h2 : ((cycleStep noPrompts (constOracle "VALIDATE") "g" 1 "h0"
      initial_shared_state).1).action = "VALIDATE" := by decide
  exact ⟨h1, h2, c9_validate_noop noPrompts (constOracle "VALIDATE") "g" 1 "h0"
    initial_shared_state h1 h2⟩

/-- C10: a cycle whose decided action falls outside the six enumerated
actions dispatches no agents, changes nothing but `current_action` and
`current_entropy_score`, keeps the chain head at the decision hash, and
does not break the loop (the run proceeds to the next cycle instead of
failing). -/
theorem c10_unknown_action_noop (mps : Role → String → SharedState → String)
    (oracle : Nat → Role → Except String String) (prompt : String)
    (cy : Nat) (origin : String) (s : SharedState)
    (h2 : ((cycleStep mps oracle prompt cy origin s).1).action ∉ sixActions) :
    ((cycleStep mps oracle prompt cy origin s).1).dispatched = [] ∧
    ((cycleStep mps oracle prompt cy origin s).1).headAfter
      = ((cycleStep mps oracle prompt cy origin s).1).cubeHash ∧
    framePreserved s ((cycleStep mps oracle prompt cy origin s).1).stateAfter ∧
    (cycleStep mps oracle prompt cy origin s).2 = false := by
  rw [cycleStep_eq] at h2 ⊢
  dsimp only at h2 ⊢
  rw [decisionState_getD] at h2 ⊢
  split at h2
  · rename_i hc
    dsimp only at h2
    rw [hc] at h2
    exact absurd (by decide : "COMPLETE" ∈ sixActions) h2
  · rename_i hc
    dsimp only at h2
    rw [if_neg hc]
    simp only [sixActions, List.mem_cons, List.mem_singleton, not_or] at h2
    obtain ⟨hp, he, hv, hr, hco, _⟩ := h2
    have hroles : agentsFor (decisionOf (oracle cy Role.cube))
        (decisionState mps oracle prompt cy origin s) = [] := by
      simp [agentsFor, hp, he, hv, hr, hco]
    rw [hroles]
    refine ⟨rfl, by simp [fanout], ?_, rfl⟩
    simpa [fanout] using decisionState_frame mps oracle prompt cy origin s

/-- C10 witness: a decision text outside the enumeration ("THINK") makes
the cycle a pure decision step and the loop continues. -/
theorem c10_witness :
    ((cycleStep noPrompts (constOracle "THINK") "g" 1 "h0"
      initial_shared_state).1).action ∉ sixActions ∧
    (((cycleStep noPrompts (constOracle "THINK") "g" 1 "h0"
        initial_shared_state).1).dispatched = [] ∧
      ((cycleStep noPrompts (constOracle "THINK") "g" 1 "h0"
        initial_shared_state).1).headAfter
        = ((cycleStep noPrompts (constOracle "THINK") "g" 1 "h0"
          initial_shared_state).1).cubeHash ∧
      framePreserved initial_shared_state
        ((cycleStep noPrompts (constOracle "THINK") "g" 1 "h0"
          initial_shared_state).1).stateAfter ∧
      (cycleStep noPrompts (constOracle "THINK") "g" 1 "h0"
        initial_shared_state).2 = false) := by
  have h2 : ((cycleStep noPrompts (constOracle "THINK") "g" 1 "h0"
      initial_shared_state).1).action ∉ sixActions := by decide
  exact ⟨h2, c10_unknown_action_noop noPrompts (constOracle "THINK") "g" 1 "h0"
    initial_shared_state h2⟩
